import Mathlib

/-!
Verification of the trafilatura-mcp server adapter
(src/src/trafilatura_mcp/server.py): the input-validation model
(ExtractMarkdownInput with its pydantic field checks and model validator),
the acquisition/extraction pipeline (extract_markdown_tool), and the
protocol boundary (call_tool).  External collaborators (urllib.parse.urlparse,
the httpx GET, the trafilatura extraction engine) are black boxes and are
modelled as function-valued parameters collected in an Env record.
Exceptions are modelled with Except; observable side effects (the network
fetch, the engine invocation, the validation step) are recorded in an
explicit effect trace so that claims about which pipeline stages run are
statable.
-/

namespace TrafilaturaMcp

/-- A JSON-like value appearing in a tool-call arguments mapping. -/
inductive JValue where
  | str (s : String)
  | int (n : Int)
  | bool (b : Bool)
  | null
deriving DecidableEq

/-- A raw arguments payload: an ordered key-value mapping, as received by the
tool-call handler. -/
abbrev Payload := List (String × JValue)

/-- First-match key lookup in a payload, as a Python dict read of that key. -/
def lookupKey (k : String) : Payload → Option JValue
  | [] => none
  | (k', v) :: rest => if k' = k then some v else lookupKey k rest

/-- Result of urllib.parse.urlparse restricted to the two components the
validator inspects (scheme and netloc).  urlparse itself is an external
library function and enters through the environment. -/
structure UrlParseResult where
  scheme : String
  netloc : String
deriving DecidableEq

/-- Outcome of the single HTTP GET performed by fetch_url_async, as classified
by the except clauses of the source (httpx is the black box behind it). -/
inductive FetchOutcome where
  | success (text : String)
  | timeout
  | httpStatusError (status : Nat)
  | transportError (msg : String)
deriving DecidableEq

/-- The option record handed to the trafilatura extract call by
extract_content_async. -/
structure EngineOpts where
  output_format : String
  favor_recall : Bool
  include_comments : Bool
  include_tables : Bool
  include_images : Bool
  include_links : Bool
deriving DecidableEq

/-- The external collaborators of the adapter: url parsing, the HTTP fetch,
and the extraction engine.  The engine may raise (modelled as .error) or
return nothing extractable (modelled as .ok none); treating it as a function
embeds the determinism assumption the spec states for it. -/
structure Env where
  urlparse : String → UrlParseResult
  fetch : String → Int → FetchOutcome
  engine : String → EngineOpts → Except String (Option String)

/-- The MCP error codes used by the server module. -/
inductive ErrorCode where
  | INTERNAL_ERROR
  | INVALID_PARAMS
  | METHOD_NOT_FOUND
deriving DecidableEq

/-- McpError carries a code and a human-readable message. -/
structure McpError where
  code : ErrorCode
  message : String
deriving DecidableEq

/-- Python str(e) on an McpError, modelled as its human-readable message. -/
def mcpErrorStr (e : McpError) : String := e.message

/-- A text content block of a tool result. -/
structure TextContent where
  type : String
  text : String
deriving DecidableEq

/-- The result envelope returned to the host caller: content plus the error
flag distinguishing failure from success. -/
structure CallToolResult where
  content : List TextContent
  isError : Bool
deriving DecidableEq

/-- Parameters of a tool-call request: tool name and optional arguments. -/
structure CallToolParams where
  name : String
  arguments : Option Payload
deriving DecidableEq

/-- A tool-call request as received by call_tool. -/
structure CallToolRequest where
  method : String
  params : CallToolParams
deriving DecidableEq

/-- Observable pipeline effects: the validation step, a network fetch with
its url and timeout, and an engine invocation with the html and options it
received. -/
inductive Effect where
  | validate
  | fetchCall (url : String) (timeout : Int)
  | engineCall (html : String) (opts : EngineOpts)
deriving DecidableEq

/-- The validated input model (pydantic ExtractMarkdownInput), one value per
declared field. -/
structure ExtractMarkdownInput where
  url : Option String
  html : Option String
  precision : Bool
  include_comments : Bool
  include_tables : Bool
  include_images : Bool
  include_links : Bool
  timeout : Int
  output_format : String
deriving DecidableEq

/-- The raw values pydantic extracts from the payload, one per declared
field; keys outside this set are never read. -/
structure RawFields where
  url : Option JValue
  html : Option JValue
  precision : Option JValue
  include_comments : Option JValue
  include_tables : Option JValue
  include_images : Option JValue
  include_links : Option JValue
  timeout : Option JValue
  output_format : Option JValue
deriving DecidableEq

/-- The nine field names the model declares; identical to the property list
advertised by the discovery schema. -/
def knownKeys : List String :=
  ["url", "html", "precision", "include_comments", "include_tables",
   "include_images", "include_links", "timeout", "output_format"]

/-- Projection of a payload onto the declared fields, by key lookup. -/
def rawOf (p : Payload) : RawFields where
  url := lookupKey "url" p
  html := lookupKey "html" p
  precision := lookupKey "precision" p
  include_comments := lookupKey "include_comments" p
  include_tables := lookupKey "include_tables" p
  include_images := lookupKey "include_images" p
  include_links := lookupKey "include_links" p
  timeout := lookupKey "timeout" p
  output_format := lookupKey "output_format" p

/-- Pydantic extraction of an Optional str field: absent or explicit null
gives None, a string is taken as is, anything else is a type error. -/
def getOptStr (v : Option JValue) : Except String (Option String) :=
  match v with
  | none => .ok none
  | some .null => .ok none
  | some (.str s) => .ok (some s)
  | some _ => .error "Input should be a valid string"

/-- Pydantic extraction of a bool field with a declared default. -/
def getBoolDefault (v : Option JValue) (d : Bool) : Except String Bool :=
  match v with
  | none => .ok d
  | some (.bool b) => .ok b
  | some _ => .error "Input should be a valid boolean"

/-- Pydantic extraction of a str field with a declared default. -/
def getStrDefault (v : Option JValue) (d : String) : Except String String :=
  match v with
  | none => .ok d
  | some (.str s) => .ok s
  | some _ => .error "Input should be a valid string"

/-- The timeout field: integer, default 30, with the Field bounds ge 5 and
le 120 checked at construction. -/
def parseTimeoutField (v : Option JValue) : Except String Int :=
  match v with
  | none => .ok 30
  | some (.int n) =>
      if n < 5 then .error "Input should be greater than or equal to 5"
      else if 120 < n then .error "Input should be less than or equal to 120"
      else .ok n
  | some _ => .error "Input should be a valid integer"

/-- The url field validator: skip None, otherwise parse and require a
non-empty scheme, a non-empty netloc, and scheme http or https.  The
ValueError raised inside the try block is re-wrapped by the except clause
into an Invalid URL format message, as in the source. -/
def validate_url (up : String → UrlParseResult) (v : Option String) :
    Except String (Option String) :=
  match v with
  | none => .ok none
  | some s =>
      if (up s).scheme = "" ∨ (up s).netloc = "" then
        .error "Invalid URL format: URL must include scheme and netloc (e.g., https://example.com)"
      else if (up s).scheme ≠ "http" ∧ (up s).scheme ≠ "https" then
        .error "Invalid URL format: URL scheme must be http or https"
      else .ok (some s)

/-- The output_format field validator: membership in the allowed set. -/
def validate_output_format (v : String) : Except String String :=
  if v = "markdown" ∨ v = "txt" ∨ v = "xml" then .ok v
  else .error "Output format must be one of: markdown, txt, xml"

/-- Python str.strip with no argument: remove whitespace from both ends.
Defined over the character list so that it evaluates by kernel reduction. -/
def pyStrip (s : String) : String :=
  String.mk (((s.data.dropWhile Char.isWhitespace).reverse.dropWhile
    Char.isWhitespace).reverse)

/-- A Python value that is either a bool or a str: the expression
html is not None and html.strip() evaluates to the bool False when html is
None, and to the string html.strip() otherwise (Python and returns its
second operand when the first is truthy). -/
inductive PyBoolOrStr where
  | pybool (b : Bool)
  | pystr (s : String)
deriving DecidableEq

/-- Python equality of a bool against such a value: bools compare by value
(True is 1 and False is 0) and an int never equals a str, so comparing a
bool with any string yields False. -/
def pyEqBoolVal (a : Bool) (v : PyBoolOrStr) : Bool :=
  match v with
  | .pybool b => a == b
  | .pystr _ => false

/-- The value of html_provided in the model validator. -/
def html_provided_value (html : Option String) : PyBoolOrStr :=
  match html with
  | none => .pybool false
  | some h => .pystr (pyStrip h)

/-- The model validator validate_input_source, exactly as written: it raises
when url_provided == html_provided under Python equality semantics. -/
def validate_input_source (url html : Option String) : Except String Unit :=
  let url_provided : Bool := url.isSome
  let html_provided : PyBoolOrStr := html_provided_value html
  if pyEqBoolVal url_provided html_provided then
    .error "Provide exactly one of url or html"
  else .ok ()

/-- Sequential composition of two checks, as Python raising: the first
error aborts the construction. -/
def exceptBind {α β : Type} (x : Except String α)
    (f : α → Except String β) : Except String β :=
  match x with
  | .error e => .error e
  | .ok a => f a

/-- Pydantic construction of ExtractMarkdownInput from the extracted raw
fields: field extraction and field validators, then the model validator. -/
def mkFromRaw (up : String → UrlParseResult) (r : RawFields) :
    Except String ExtractMarkdownInput :=
  exceptBind (getOptStr r.url) fun url0 =>
  exceptBind (validate_url up url0) fun url =>
  exceptBind (getOptStr r.html) fun html =>
  exceptBind (getBoolDefault r.precision true) fun precision =>
  exceptBind (getBoolDefault r.include_comments false) fun include_comments =>
  exceptBind (getBoolDefault r.include_tables true) fun include_tables =>
  exceptBind (getBoolDefault r.include_images true) fun include_images =>
  exceptBind (getBoolDefault r.include_links true) fun include_links =>
  exceptBind (parseTimeoutField r.timeout) fun timeout =>
  exceptBind (getStrDefault r.output_format "markdown") fun of0 =>
  exceptBind (validate_output_format of0) fun output_format =>
  exceptBind (validate_input_source url html) fun _ =>
  .ok { url := url, html := html, precision := precision,
        include_comments := include_comments,
        include_tables := include_tables,
        include_images := include_images,
        include_links := include_links,
        timeout := timeout, output_format := output_format }

/-- Construction of the input model from a raw payload: pydantic reads the
declared fields and ignores every other key. -/
def mkExtractMarkdownInput (up : String → UrlParseResult) (p : Payload) :
    Except String ExtractMarkdownInput :=
  mkFromRaw up (rawOf p)

/-- fetch_url_async: a single GET through the black-box client, with each
except clause mapped to the McpError the source raises. -/
def fetch_url_async (env : Env) (url : String) (timeout : Int) :
    Except McpError String :=
  match env.fetch url timeout with
  | .success text => .ok text
  | .timeout => .error ⟨.INTERNAL_ERROR, "Timeout fetching URL: " ++ url⟩
  | .httpStatusError st =>
      .error ⟨.INTERNAL_ERROR,
        "HTTP " ++ toString st ++ " error fetching URL: " ++ url⟩
  | .transportError msg =>
      .error ⟨.INTERNAL_ERROR, "Error fetching URL: " ++ msg⟩

/-- The option translation performed by extract_markdown_tool when calling
extract_content_async: favor_recall is the negation of precision. -/
def engineOptsOf (input : ExtractMarkdownInput) : EngineOpts where
  output_format := input.output_format
  favor_recall := !input.precision
  include_comments := input.include_comments
  include_tables := input.include_tables
  include_images := input.include_images
  include_links := input.include_links

/-- extract_content_async: invoke the engine; any exception it raises is
caught and reclassified as an INTERNAL_ERROR McpError. -/
def extract_content_async (env : Env) (html : String) (opts : EngineOpts) :
    Except McpError (Option String) :=
  match env.engine html opts with
  | .ok r => .ok r
  | .error e => .error ⟨.INTERNAL_ERROR, "Content extraction failed: " ++ e⟩

/-- The message of the empty-content check after acquisition. -/
def noHtmlMsg : String := "No HTML content available for extraction"

/-- The message raised when the engine result is empty or blank. -/
def emptyExtractionMsg : String :=
  "Trafilatura returned empty content. The page may not contain extractable text."

/-- The tail of extract_markdown_tool from the point where html_content is
known: the emptiness check on the acquired html (if not html_content or not
html_content.strip()), the engine invocation, the emptiness check on the
extracted content, and the final trim.  effs is the effect trace accumulated
so far. -/
def afterAcquire (env : Env) (input : ExtractMarkdownInput)
    (html_content : Option String) (effs : List Effect) :
    Except McpError (List TextContent) × List Effect :=
  match html_content with
  | none => (.error ⟨.INTERNAL_ERROR, noHtmlMsg⟩, effs)
  | some h =>
    if h = "" ∨ pyStrip h = "" then
      (.error ⟨.INTERNAL_ERROR, noHtmlMsg⟩, effs)
    else
      match extract_content_async env h (engineOptsOf input) with
      | .error e =>
          (.error e, effs ++ [.engineCall h (engineOptsOf input)])
      | .ok none =>
          (.error ⟨.INTERNAL_ERROR, emptyExtractionMsg⟩,
           effs ++ [.engineCall h (engineOptsOf input)])
      | .ok (some s) =>
          if s = "" ∨ pyStrip s = "" then
            (.error ⟨.INTERNAL_ERROR, emptyExtractionMsg⟩,
             effs ++ [.engineCall h (engineOptsOf input)])
          else
            (.ok [⟨"text", pyStrip s⟩],
             effs ++ [.engineCall h (engineOptsOf input)])

/-- extract_markdown_tool: validate, acquire (fetch when the url field is
truthy in the Python sense, i.e. present and non-empty; otherwise pass the
supplied html through), then extract.  Every raise is an Except error; the
effect trace records validation, the fetch, and the engine call. -/
def extract_markdown_tool (env : Env) (args : Payload) :
    Except McpError (List TextContent) × List Effect :=
  match mkExtractMarkdownInput env.urlparse args with
  | .error e =>
      (.error ⟨.INVALID_PARAMS, "Invalid parameters: " ++ e⟩, [.validate])
  | .ok input =>
      match input.url with
      | some u =>
          if u = "" then
            afterAcquire env input input.html [.validate]
          else
            match fetch_url_async env u input.timeout with
            | .ok text =>
                afterAcquire env input (some text)
                  [.validate, .fetchCall u input.timeout]
            | .error e => (.error e, [.validate, .fetchCall u input.timeout])
      | none => afterAcquire env input input.html [.validate]

/-- request.params.arguments or an empty mapping, as in the source. -/
def argsOf (req : CallToolRequest) : Payload :=
  match req.params.arguments with
  | none => []
  | some a => a

/-- call_tool: reject a wrong method and an unknown tool name by raising an
McpError (both raise statements sit before the try block in the source, so
those errors propagate out of call_tool); otherwise run the pipeline inside
the try block and convert its outcome into a CallToolResult whose isError
flag distinguishes failure from success. -/
def call_tool (env : Env) (req : CallToolRequest) :
    Except McpError CallToolResult × List Effect :=
  if req.method ≠ "tools/call" then
    (.error ⟨.METHOD_NOT_FOUND, "Method not found: " ++ req.method⟩, [])
  else if req.params.name ≠ "extract_markdown" then
    (.error ⟨.INVALID_PARAMS, "Unknown tool: " ++ req.params.name⟩, [])
  else
    match extract_markdown_tool env (argsOf req) with
    | (.ok content, effs) => (.ok ⟨content, false⟩, effs)
    | (.error e, effs) =>
        (.ok ⟨[⟨"text", mcpErrorStr e⟩], true⟩, effs)

/-- The parts of the advertised discovery schema of extract_markdown that
the claims mention: the declared properties, the timeout bounds, the
output_format enumeration, the oneOf constraint and the
additionalProperties flag. -/
structure ToolInputSchema where
  propertyNames : List String
  timeoutMinimum : Int
  timeoutMaximum : Int
  outputFormatEnum : List String
  oneOfRequired : List (List String)
  additionalProperties : Bool
deriving DecidableEq

/-- The input schema returned by list_tools for extract_markdown. -/
def extract_markdown_inputSchema : ToolInputSchema where
  propertyNames := knownKeys
  timeoutMinimum := 5
  timeoutMaximum := 120
  outputFormatEnum := ["markdown", "txt", "xml"]
  oneOfRequired := [["url"], ["html"]]
  additionalProperties := false

/-- A concrete stand-in for urlparse used on concrete inputs: it resolves
the few fixed url strings the witnesses mention the way the real parser
does, and maps everything else to empty components. -/
def sampleUrlparse : String → UrlParseResult := fun s =>
  if s = "https://example.com" then ⟨"https", "example.com"⟩
  else if s = "http://example.com" then ⟨"http", "example.com"⟩
  else if s = "ftp://example.com" then ⟨"ftp", "example.com"⟩
  else ⟨"", ""⟩

/-- Whether an Except value is a returned value rather than a propagated
exception. -/
def exceptIsOk {ε α : Type} : Except ε α → Bool
  | .ok _ => true
  | .error _ => false

/-- A concrete environment: fetch always succeeds with a fixed page and the
engine echoes the html it is given. -/
def envEcho : Env :=
  ⟨sampleUrlparse, fun _ _ => .success "<p>Hello</p>", fun h _ => .ok (some h)⟩

/-- A concrete environment whose engine finds nothing extractable. -/
def envEmptyEngine : Env :=
  ⟨sampleUrlparse, fun _ _ => .timeout, fun _ _ => .ok none⟩

theorem exceptBind_eq_ok {α β : Type} {x : Except String α}
    {f : α → Except String β} {b : β} (h : exceptBind x f = .ok b) :
    ∃ a, x = .ok a ∧ f a = .ok b := by
  cases x with
  | error e => exact absurd h (by simp [exceptBind])
  | ok a => exact ⟨a, rfl, h⟩

/-- A successful construction certifies each field check it ran: the url
extraction, the url validator applied to it, the html extraction and the
timeout check, with the constructed fields coming from those checks. -/
theorem mkFromRaw_ok_parts {up : String → UrlParseResult} {r : RawFields}
    {inp : ExtractMarkdownInput} (h : mkFromRaw up r = .ok inp) :
    ∃ url0, getOptStr r.url = .ok url0 ∧
      validate_url up url0 = .ok inp.url ∧
      getOptStr r.html = .ok inp.html ∧
      parseTimeoutField r.timeout = .ok inp.timeout := by
  unfold mkFromRaw at h
  obtain ⟨url0, h1, h⟩ := exceptBind_eq_ok h
  obtain ⟨url, h2, h⟩ := exceptBind_eq_ok h
  obtain ⟨html, h3, h⟩ := exceptBind_eq_ok h
  obtain ⟨precision, h4, h⟩ := exceptBind_eq_ok h
  obtain ⟨include_comments, h5, h⟩ := exceptBind_eq_ok h
  obtain ⟨include_tables, h6, h⟩ := exceptBind_eq_ok h
  obtain ⟨include_images, h7, h⟩ := exceptBind_eq_ok h
  obtain ⟨include_links, h8, h⟩ := exceptBind_eq_ok h
  obtain ⟨timeout, h9, h⟩ := exceptBind_eq_ok h
  obtain ⟨of0, h10, h⟩ := exceptBind_eq_ok h
  obtain ⟨output_format, h11, h⟩ := exceptBind_eq_ok h
  obtain ⟨u, h12, h⟩ := exceptBind_eq_ok h
  injection h with h
  subst h
  exact ⟨url0, h1, h2, h3, h9⟩

theorem lookupKey_append_right (k : String) (p q : Payload)
    (hq : ∀ kv ∈ q, kv.1 ≠ k) :
    lookupKey k (p ++ q) = lookupKey k p := by
  induction p with
  | nil =>
      simp only [List.nil_append]
      induction q with
      | nil => rfl
      | cons kv rest ih =>
          obtain ⟨k', v⟩ := kv
          have h1 : k' ≠ k := hq (k', v) (by simp)
          simp only [lookupKey, if_neg h1]
          exact ih fun kv hkv => hq kv (by simp [hkv])
  | cons kv rest ih =>
      obtain ⟨k', v⟩ := kv
      simp only [List.cons_append, lookupKey]
      split
      · rfl
      · exact ih

/-- Appending pairs whose keys are all outside the declared field set does
not change the extracted raw fields. -/
theorem rawOf_append (p q : Payload)
    (hq : ∀ kv ∈ q, kv.1 ∉ knownKeys) :
    rawOf (p ++ q) = rawOf p := by
  have h : ∀ k, k ∈ knownKeys → lookupKey k (p ++ q) = lookupKey k p :=
    fun k hk => lookupKey_append_right k p q
      (fun kv hkv he => hq kv hkv (he ▸ hk))
  unfold rawOf
  refine RawFields.mk.injEq _ _ _ _ _ _ _ _ _ _ _ _ _ _ _ _ _ _ ▸ ?_
  exact ⟨h _ (by simp [knownKeys]), h _ (by simp [knownKeys]),
         h _ (by simp [knownKeys]), h _ (by simp [knownKeys]),
         h _ (by simp [knownKeys]), h _ (by simp [knownKeys]),
         h _ (by simp [knownKeys]), h _ (by simp [knownKeys]),
         h _ (by simp [knownKeys])⟩

/-- The effect trace of afterAcquire extends the incoming trace with at most
one engine call, whose html argument is the acquired content itself. -/
theorem afterAcquire_effects (env : Env) (inp : ExtractMarkdownInput)
    (hc : Option String) (effs : List Effect) :
    (afterAcquire env inp hc effs).2 = effs ∨
    ∃ h, hc = some h ∧
      (afterAcquire env inp hc effs).2 =
        effs ++ [.engineCall h (engineOptsOf inp)] := by
  cases hc with
  | none => exact Or.inl rfl
  | some h =>
      by_cases h1 : h = "" ∨ pyStrip h = ""
      · exact Or.inl (by simp only [afterAcquire, if_pos h1])
      · refine Or.inr ⟨h, rfl, ?_⟩
        simp only [afterAcquire, if_neg h1, extract_content_async]
        cases q : env.engine h (engineOptsOf inp) with
        | error e => rfl
        | ok r =>
            cases r with
            | none => rfl
            | some s =>
                by_cases h2 : s = "" ∨ pyStrip s = ""
                · simp only [if_pos h2]
                · simp only [if_neg h2]

/-- Claim C2: the spec and the validator docstring require that a payload
with url and html both present, or both absent, fails validation with an
exactly-one-of-source violation.  The code raises only in the both-absent
case: url_provided is a bool while html_provided is the string
html.strip() whenever html is a str, and a Python bool never equals a
str, so the guard url_provided == html_provided is True only when both
values are the bool False, i.e. both fields are None.  A payload carrying
both a url and non-blank html therefore constructs an ExtractMarkdownInput,
contradicting the validator docstring (Ensure exactly one of url or html is
provided) and its inline comment (Both true or both false); the both-absent
half of the claim does hold. -/
theorem both_sources_accepted_bug :
    mkExtractMarkdownInput sampleUrlparse
        [("url", JValue.str "https://example.com"),
         ("html", JValue.str "<p>hello</p>")] =
      .ok ⟨some "https://example.com", some "<p>hello</p>",
           true, false, true, true, true, 30, "markdown"⟩ ∧
    mkExtractMarkdownInput sampleUrlparse [] =
      .error "Provide exactly one of url or html" :=
  ⟨rfl, rfl⟩

/-- Claim C5: for a payload carrying an integer timeout value t, the
timeout field check succeeds exactly when 5 ≤ t ≤ 120; a successful
construction forces t into the bounds and records it unchanged; and an
in-range t (both boundaries included) never turns an otherwise-valid
payload invalid: replacing an absent timeout by any in-range t preserves
success and only changes the timeout field. -/
theorem timeout_validation_bounds (t : Int) :
    (∀ p : Payload, lookupKey "timeout" p = some (.int t) →
      ((∃ v, parseTimeoutField (rawOf p).timeout = .ok v) ↔
        5 ≤ t ∧ t ≤ 120)) ∧
    (∀ (up : String → UrlParseResult) (p : Payload)
        (inp : ExtractMarkdownInput),
      lookupKey "timeout" p = some (.int t) →
      mkExtractMarkdownInput up p = .ok inp →
      (5 ≤ t ∧ t ≤ 120) ∧ inp.timeout = t) ∧
    (∀ (up : String → UrlParseResult) (r : RawFields)
        (inp : ExtractMarkdownInput),
      r.timeout = some (.int t) → 5 ≤ t → t ≤ 120 →
      mkFromRaw up { r with timeout := none } = .ok inp →
      mkFromRaw up r = .ok { inp with timeout := t }) := by
  refine ⟨?_, ?_, ?_⟩
  · intro p hp
    rw [show (rawOf p).timeout = lookupKey "timeout" p from rfl, hp]
    simp only [parseTimeoutField]
    constructor
    · rintro ⟨v, hv⟩
      split_ifs at hv with ha hb
      all_goals simp at hv
      all_goals exact ⟨by omega, by omega⟩
    · rintro ⟨h5, h120⟩
      exact ⟨t, by rw [if_neg (by omega), if_neg (by omega)]⟩
  · intro up p inp hp hmk
    unfold mkExtractMarkdownInput at hmk
    obtain ⟨url0, e1, e2, e3, e4⟩ := mkFromRaw_ok_parts hmk
    rw [show (rawOf p).timeout = lookupKey "timeout" p from rfl, hp] at e4
    simp only [parseTimeoutField] at e4
    split_ifs at e4 with ha hb
    all_goals simp at e4
    all_goals exact ⟨⟨by omega, by omega⟩, by omega⟩
  · intro up r inp hr ht5 ht120 hok
    unfold mkFromRaw at hok ⊢
    obtain ⟨url0, e1, hok⟩ := exceptBind_eq_ok hok
    obtain ⟨url, e2, hok⟩ := exceptBind_eq_ok hok
    obtain ⟨html, e3, hok⟩ := exceptBind_eq_ok hok
    obtain ⟨b1, e4, hok⟩ := exceptBind_eq_ok hok
    obtain ⟨b2, e5, hok⟩ := exceptBind_eq_ok hok
    obtain ⟨b3, e6, hok⟩ := exceptBind_eq_ok hok
    obtain ⟨b4, e7, hok⟩ := exceptBind_eq_ok hok
    obtain ⟨b5, e8, hok⟩ := exceptBind_eq_ok hok
    obtain ⟨tv, e9, hok⟩ := exceptBind_eq_ok hok
    obtain ⟨of0, e10, hok⟩ := exceptBind_eq_ok hok
    obtain ⟨ofv, e11, hok⟩ := exceptBind_eq_ok hok
    obtain ⟨uu, e12, hok⟩ := exceptBind_eq_ok hok
    injection hok with hok
    subst hok
    rw [show getOptStr r.url = .ok url0 from e1]
    simp only [exceptBind]
    rw [e2]
    simp only [exceptBind]
    rw [show getOptStr r.html = .ok html from e3]
    simp only [exceptBind]
    rw [show getBoolDefault r.precision true = .ok b1 from e4]
    simp only [exceptBind]
    rw [show getBoolDefault r.include_comments false = .ok b2 from e5]
    simp only [exceptBind]
    rw [show getBoolDefault r.include_tables true = .ok b3 from e6]
    simp only [exceptBind]
    rw [show getBoolDefault r.include_images true = .ok b4 from e7]
    simp only [exceptBind]
    rw [show getBoolDefault r.include_links true = .ok b5 from e8]
    simp only [exceptBind]
    rw [show parseTimeoutField r.timeout = .ok t by
      rw [hr]
      simp only [parseTimeoutField]
      rw [if_neg (by omega), if_neg (by omega)]]
    simp only [exceptBind]
    rw [show getStrDefault r.output_format "markdown" = .ok of0 from e10]
    simp only [exceptBind]
    rw [e11]
    simp only [exceptBind]
    rw [e12]
    try simp only [exceptBind]

/-- Witness for C5: a concrete payload with the boundary timeout values 5
and 120 validates successfully with the given timeout, via the third
conjunct applied to the otherwise-valid payload with the timeout absent. -/
theorem timeout_validation_bounds_witness :
    mkFromRaw sampleUrlparse
        (rawOf [("html", JValue.str "<p>x</p>"), ("timeout", JValue.int 5)]) =
      .ok ⟨none, some "<p>x</p>", true, false, true, true, true, 5,
           "markdown"⟩ ∧
    mkFromRaw sampleUrlparse
        (rawOf [("html", JValue.str "<p>x</p>"),
                ("timeout", JValue.int 120)]) =
      .ok ⟨none, some "<p>x</p>", true, false, true, true, true, 120,
           "markdown"⟩ :=
  ⟨(timeout_validation_bounds 5).2.2 sampleUrlparse
      (rawOf [("html", JValue.str "<p>x</p>"), ("timeout", JValue.int 5)])
      ⟨none, some "<p>x</p>", true, false, true, true, true, 30, "markdown"⟩
      rfl (by decide) (by decide) rfl,
   (timeout_validation_bounds 120).2.2 sampleUrlparse
      (rawOf [("html", JValue.str "<p>x</p>"), ("timeout", JValue.int 120)])
      ⟨none, some "<p>x</p>", true, false, true, true, true, 30, "markdown"⟩
      rfl (by decide) (by decide) rfl⟩

/-- Claim C6: when the parsed url has an empty scheme, an empty netloc, or
a scheme other than exactly http or https, the url check rejects it and no
ExtractMarkdownInput with that url can be constructed; when the scheme is
http or https and the netloc is non-empty, the url check passes. -/
theorem url_scheme_host_validation (up : String → UrlParseResult)
    (s : String) :
    (((up s).scheme = "" ∨ (up s).netloc = "" ∨
        ((up s).scheme ≠ "http" ∧ (up s).scheme ≠ "https")) →
      (∀ x, validate_url up (some s) ≠ .ok x) ∧
      (∀ (p : Payload) (inp : ExtractMarkdownInput),
        lookupKey "url" p = some (.str s) →
        mkExtractMarkdownInput up p ≠ .ok inp)) ∧
    ((((up s).scheme = "http" ∨ (up s).scheme = "https") ∧
        (up s).netloc ≠ "") →
      validate_url up (some s) = .ok (some s)) := by
  constructor
  · intro hbad
    have hvu : ∀ x, validate_url up (some s) ≠ .ok x := by
      intro x hx
      simp only [validate_url] at hx
      split_ifs at hx with h1 h2
      all_goals try simp at hx
      all_goals rcases hbad with h | h | h
      all_goals first
        | exact h1 (Or.inl h)
        | exact h1 (Or.inr h)
        | exact h2 h
    refine ⟨hvu, ?_⟩
    intro p inp hp hmk
    unfold mkExtractMarkdownInput mkFromRaw at hmk
    obtain ⟨url0, e1, hmk⟩ := exceptBind_eq_ok hmk
    obtain ⟨url, e2, _⟩ := exceptBind_eq_ok hmk
    rw [show (rawOf p).url = lookupKey "url" p from rfl, hp] at e1
    unfold getOptStr at e1
    injection e1 with e1
    rw [← e1] at e2
    exact hvu url e2
  · rintro ⟨hsch, hnet⟩
    simp only [validate_url]
    rw [if_neg ?hn1, if_neg ?hn2]
    case hn1 =>
      intro hc
      rcases hc with hc | hc
      · rcases hsch with h | h
        · rw [h] at hc
          exact absurd hc (by decide)
        · rw [h] at hc
          exact absurd hc (by decide)
      · exact hnet hc
    case hn2 =>
      intro hc
      rcases hsch with h | h
      · exact hc.1 h
      · exact hc.2 h

/-- Witness for C6: the ftp scheme from the spec scenario is rejected by
the url check, while a well-formed http url passes it. -/
theorem url_scheme_host_validation_witness :
    validate_url sampleUrlparse (some "ftp://example.com") ≠
      .ok (some "ftp://example.com") ∧
    validate_url sampleUrlparse (some "http://example.com") =
      .ok (some "http://example.com") :=
  ⟨((url_scheme_host_validation sampleUrlparse "ftp://example.com").1
      (by right; right; exact ⟨by decide, by decide⟩)).1
      (some "ftp://example.com"),
   (url_scheme_host_validation sampleUrlparse "http://example.com").2
      ⟨Or.inl (by decide), by decide⟩⟩

/-- Claim C8: when construction of the input model fails, the pipeline
stops with the validation failure (INVALID_PARAMS wrapping the validation
message): its effect trace holds the validation step only, with no network
fetch and no engine invocation. -/
theorem validation_short_circuits (env : Env) (args : Payload) (e : String)
    (h : mkExtractMarkdownInput env.urlparse args = .error e) :
    extract_markdown_tool env args =
      (.error ⟨.INVALID_PARAMS, "Invalid parameters: " ++ e⟩, [.validate]) ∧
    (∀ u t, Effect.fetchCall u t ∉ (extract_markdown_tool env args).2) ∧
    (∀ h2 o, Effect.engineCall h2 o ∉ (extract_markdown_tool env args).2) := by
  have hrun : extract_markdown_tool env args =
      (.error ⟨.INVALID_PARAMS, "Invalid parameters: " ++ e⟩,
       [.validate]) := by
    unfold extract_markdown_tool
    rw [h]
  refine ⟨hrun, ?_, ?_⟩ <;> rw [hrun] <;> simp

/-- Witness for C8: the spec scenario with timeout 1 on an otherwise valid
url payload fails validation and produces no fetch and no engine effect. -/
theorem validation_short_circuits_witness :
    extract_markdown_tool envEcho
        [("url", JValue.str "https://example.com"),
         ("timeout", JValue.int 1)] =
      (.error ⟨.INVALID_PARAMS,
        "Invalid parameters: Input should be greater than or equal to 5"⟩,
       [.validate]) ∧
    (∀ u t, Effect.fetchCall u t ∉
      (extract_markdown_tool envEcho
        [("url", JValue.str "https://example.com"),
         ("timeout", JValue.int 1)]).2) ∧
    (∀ h2 o, Effect.engineCall h2 o ∉
      (extract_markdown_tool envEcho
        [("url", JValue.str "https://example.com"),
         ("timeout", JValue.int 1)]).2) :=
  validation_short_circuits envEcho
    [("url", JValue.str "https://example.com"), ("timeout", JValue.int 1)]
    "Input should be greater than or equal to 5" rfl

/-- Claim C9: the pipeline is a pure function of the environment and of the
extracted field values of the payload; since the environment fixes the
extraction engine as a function of its input (the determinism hypothesis),
two invocations with field-wise identical arguments, in particular the same
invocation repeated, yield identical output. -/
theorem pipeline_deterministic (env : Env) (p q : Payload)
    (h : rawOf p = rawOf q) :
    extract_markdown_tool env p = extract_markdown_tool env q := by
  unfold extract_markdown_tool mkExtractMarkdownInput
  rw [h]

/-- Witness for C9: two concrete payloads with identical html and options
give identical pipeline output. -/
theorem pipeline_deterministic_witness :
    extract_markdown_tool envEcho [("html", JValue.str "<p>Hello</p>")] =
      extract_markdown_tool envEcho
        [("html", JValue.str "<p>Hello</p>"), ("attempt", JValue.int 2)] :=
  pipeline_deterministic envEcho
    [("html", JValue.str "<p>Hello</p>")]
    [("html", JValue.str "<p>Hello</p>"), ("attempt", JValue.int 2)] rfl

/-- Claim C10: the validator reads only the nine declared fields, so
extending a successfully validating payload with unrecognized keys leaves
the constructed ExtractMarkdownInput unchanged, even though the advertised
discovery schema declares additionalProperties false. -/
theorem unknown_keys_ignored (up : String → UrlParseResult) (p q : Payload)
    (inp : ExtractMarkdownInput)
    (hq : ∀ kv ∈ q, kv.1 ∉ knownKeys)
    (hok : mkExtractMarkdownInput up p = .ok inp) :
    mkExtractMarkdownInput up (p ++ q) = .ok inp ∧
    extract_markdown_inputSchema.additionalProperties = false := by
  refine ⟨?_, rfl⟩
  unfold mkExtractMarkdownInput at hok ⊢
  rw [rawOf_append p q hq]
  exact hok

/-- Witness for C10: appending a foreign key to a valid html payload leaves
the constructed input unchanged, while the schema forbids extra
properties. -/
theorem unknown_keys_ignored_witness :
    mkExtractMarkdownInput sampleUrlparse
        ([("html", JValue.str "<p>x</p>")] ++
         [("foo", JValue.str "bar")]) =
      .ok ⟨none, some "<p>x</p>", true, false, true, true, true, 30,
           "markdown"⟩ ∧
    extract_markdown_inputSchema.additionalProperties = false :=
  unknown_keys_ignored sampleUrlparse
    [("html", JValue.str "<p>x</p>")] [("foo", JValue.str "bar")]
    ⟨none, some "<p>x</p>", true, false, true, true, true, 30, "markdown"⟩
    (by decide) rfl

/-- Engine outcomes the spec calls empty: nothing returned, or a string
that is blank after stripping. -/
def engineResultEmpty : Except String (Option String) → Bool
  | .ok none => true
  | .ok (some s) => pyStrip s == ""
  | .error _ => false

/-- If every engine outcome is empty, a run of the acquisition tail that
did invoke the engine (its trace grew past the incoming one) ends in the
empty-content failure. -/
theorem afterAcquire_empty {env : Env} {inp : ExtractMarkdownInput}
    {hc : Option String} {effs : List Effect}
    (heng : ∀ h o, engineResultEmpty (env.engine h o) = true)
    (hnone : ∀ h o, Effect.engineCall h o ∉ effs)
    (hcall : ∃ h o,
      Effect.engineCall h o ∈ (afterAcquire env inp hc effs).2) :
    (afterAcquire env inp hc effs).1 =
      .error ⟨.INTERNAL_ERROR, emptyExtractionMsg⟩ := by
  cases hc with
  | none =>
      obtain ⟨h, o, hm⟩ := hcall
      exact absurd hm (hnone h o)
  | some h =>
      by_cases h1 : h = "" ∨ pyStrip h = ""
      · obtain ⟨h', o, hm⟩ := hcall
        rw [show (afterAcquire env inp (some h) effs).2 = effs from by
          simp only [afterAcquire, if_pos h1]] at hm
        exact absurd hm (hnone h' o)
      · simp only [afterAcquire, if_neg h1, extract_content_async]
        have he := heng h (engineOptsOf inp)
        cases q : env.engine h (engineOptsOf inp) with
        | error e =>
            rw [q] at he
            simp [engineResultEmpty] at he
        | ok r =>
            cases r with
            | none => rfl
            | some s =>
                rw [q] at he
                simp only [engineResultEmpty] at he
                have hs : pyStrip s = "" := by
                  exact eq_of_beq he
                simp [hs]

/-- Claim C7: whenever the engine is only able to produce an empty or blank
result and the pipeline did reach the engine (an engine call appears in its
trace), the pipeline output is the classified empty-content failure, whose
message states that no extractable text was found; it is never a
successful response carrying an empty payload. -/
theorem empty_engine_result_classified (env : Env) (args : Payload)
    (heng : ∀ h o, engineResultEmpty (env.engine h o) = true)
    (hcall : ∃ h o,
      Effect.engineCall h o ∈ (extract_markdown_tool env args).2) :
    (extract_markdown_tool env args).1 =
      .error ⟨.INTERNAL_ERROR, emptyExtractionMsg⟩ := by
  cases hq : mkExtractMarkdownInput env.urlparse args with
  | error e =>
      obtain ⟨h, o, hm⟩ := hcall
      rw [show (extract_markdown_tool env args).2 = [.validate] from by
        simp only [extract_markdown_tool, hq]] at hm
      simp at hm
  | ok inp =>
      cases hu : inp.url with
      | none =>
          have hrw : extract_markdown_tool env args =
              afterAcquire env inp inp.html [.validate] := by
            simp only [extract_markdown_tool, hq]
            rw [hu]
          rw [hrw] at hcall ⊢
          exact afterAcquire_empty heng (by intro h o; simp) hcall
      | some u =>
          by_cases hue : u = ""
          · have hrw : extract_markdown_tool env args =
                afterAcquire env inp inp.html [.validate] := by
              simp only [extract_markdown_tool, hq]
              simp only [hu]
              rw [if_pos hue]
            rw [hrw] at hcall ⊢
            exact afterAcquire_empty heng (by intro h o; simp) hcall
          · cases hf : fetch_url_async env u inp.timeout with
            | ok text =>
                have hrw : extract_markdown_tool env args =
                    afterAcquire env inp (some text)
                      [.validate, .fetchCall u inp.timeout] := by
                  simp only [extract_markdown_tool, hq]
                  simp only [hu]
                  rw [if_neg hue, hf]
                rw [hrw] at hcall ⊢
                exact afterAcquire_empty heng (by intro h o; simp) hcall
            | error er =>
                obtain ⟨h, o, hm⟩ := hcall
                rw [show (extract_markdown_tool env args).2 =
                    [.validate, .fetchCall u inp.timeout] from by
                  simp only [extract_markdown_tool, hq]
                  simp only [hu]
                  rw [if_neg hue, hf]] at hm
                simp at hm

/-- Witness for C7: the spec scenario, inline html with no extractable
text against an engine that returns nothing, ends in the empty-content
failure. -/
theorem empty_engine_result_classified_witness :
    (extract_markdown_tool envEmptyEngine
        [("html", JValue.str "<p></p>")]).1 =
      .error ⟨.INTERNAL_ERROR, emptyExtractionMsg⟩ :=
  empty_engine_result_classified envEmptyEngine
    [("html", JValue.str "<p></p>")] (fun _ _ => rfl)
    ⟨"<p></p>", ⟨"markdown", false, false, true, true, true⟩, by decide⟩

/-- Claim C1 (amended): for method tools/call and the known tool name, the
pipeline outcome is always delivered as a returned CallToolResult whose
error flag is clear exactly when the pipeline succeeded; for an unknown
tool name the source raises its McpError before the try block, so that
exception propagates instead (see the counterexample). -/
theorem call_tool_returns_envelope_for_known_tool (env : Env)
    (req : CallToolRequest) (hm : req.method = "tools/call")
    (hn : req.params.name = "extract_markdown") :
    ∃ r, (call_tool env req).1 = .ok r ∧
      (r.isError = false ↔
        ∃ c, (extract_markdown_tool env (argsOf req)).1 = .ok c) := by
  unfold call_tool
  rw [hm, hn, if_neg (fun hc => hc rfl), if_neg (fun hc => hc rfl)]
  cases hx : extract_markdown_tool env (argsOf req) with
  | mk res effs =>
      cases res with
      | ok c =>
          refine ⟨⟨c, false⟩, ?_, ?_⟩
          · rfl
          · simp [hx]
      | error e =>
          refine ⟨⟨[⟨"text", mcpErrorStr e⟩], true⟩, ?_, ?_⟩
          · rfl
          · simp [hx]

/-- Witness for C1: a well-formed call on the known tool receives a result
value whose error flag reflects the pipeline outcome. -/
theorem call_tool_returns_envelope_for_known_tool_witness :
    ∃ r, (call_tool envEcho
        ⟨"tools/call", ⟨"extract_markdown",
          some [("html", JValue.str "<p>Hello</p>")]⟩⟩).1 = .ok r ∧
      (r.isError = false ↔
        ∃ c, (extract_markdown_tool envEcho
          (argsOf ⟨"tools/call", ⟨"extract_markdown",
            some [("html", JValue.str "<p>Hello</p>")]⟩⟩)).1 = .ok c) :=
  call_tool_returns_envelope_for_known_tool envEcho
    ⟨"tools/call", ⟨"extract_markdown",
      some [("html", JValue.str "<p>Hello</p>")]⟩⟩ rfl rfl

/-- Counterexample to C1 as stated: with method tools/call and the unknown
tool name mystery_tool, call_tool does not return a result value at all;
the raise before the try block propagates an McpError out of call_tool, so
the outcome is an exception, not a returned envelope. -/
theorem call_tool_unknown_tool_raises_cex :
    call_tool envEcho ⟨"tools/call", ⟨"mystery_tool", none⟩⟩ =
      (.error ⟨.INVALID_PARAMS, "Unknown tool: mystery_tool"⟩, []) ∧
    exceptIsOk (call_tool envEcho
      ⟨"tools/call", ⟨"mystery_tool", none⟩⟩).1 = false :=
  ⟨rfl, rfl⟩

/-- Claim C3 (amended): a tool-call with method tools/call naming any tool
other than extract_markdown makes call_tool raise an McpError whose
message identifies the name as unknown, before any pipeline stage runs
(the effect trace is empty); no response envelope is produced. -/
theorem unknown_tool_raises_mcperror (env : Env) (req : CallToolRequest)
    (hm : req.method = "tools/call")
    (hn : req.params.name ≠ "extract_markdown") :
    call_tool env req =
      (.error ⟨.INVALID_PARAMS, "Unknown tool: " ++ req.params.name⟩,
       []) := by
  unfold call_tool
  rw [hm, if_neg (fun hc => hc rfl), if_pos hn]

/-- Witness for C3: a concrete unknown tool name baz is rejected with the
unknown-tool McpError and an empty effect trace. -/
theorem unknown_tool_raises_mcperror_witness :
    call_tool envEcho ⟨"tools/call", ⟨"baz", none⟩⟩ =
      (.error ⟨.INVALID_PARAMS, "Unknown tool: baz"⟩, []) :=
  unknown_tool_raises_mcperror envEcho ⟨"tools/call", ⟨"baz", none⟩⟩
    rfl (by decide)

/-- Counterexample to C3 as stated: for the unknown tool foo no response
with an error flag is returned; call_tool propagates the unknown-tool
McpError as an exception (no CallToolResult exists), though the other half
of the claim holds: no pipeline stage runs. -/
theorem unknown_tool_no_result_cex :
    call_tool envEmptyEngine ⟨"tools/call", ⟨"foo", none⟩⟩ =
      (.error ⟨.INVALID_PARAMS, "Unknown tool: foo"⟩, []) ∧
    exceptIsOk (call_tool envEmptyEngine
      ⟨"tools/call", ⟨"foo", none⟩⟩).1 = false :=
  ⟨rfl, rfl⟩

/-- Claim C4 (amended): on the inline-html path the pipeline performs no
network fetch and hands the supplied html string to the engine verbatim,
without trimming it (the source assigns html_content = input_data.html;
only the final extracted output is stripped). -/
theorem html_source_passthrough (env : Env) (args : Payload)
    (inp : ExtractMarkdownInput)
    (hmk : mkExtractMarkdownInput env.urlparse args = .ok inp)
    (hurl : inp.url = none ∨ inp.url = some "") :
    (∀ u t, Effect.fetchCall u t ∉ (extract_markdown_tool env args).2) ∧
    (∀ h o, Effect.engineCall h o ∈ (extract_markdown_tool env args).2 →
      inp.html = some h ∧ o = engineOptsOf inp) := by
  have hrw : extract_markdown_tool env args =
      afterAcquire env inp inp.html [.validate] := by
    simp only [extract_markdown_tool, hmk]
    rcases hurl with hu | hu
    · rw [hu]
    · simp only [hu]
      simp
  rw [hrw]
  rcases afterAcquire_effects env inp inp.html [.validate] with
    ha | ⟨h, hh, ha⟩
  · rw [ha]
    constructor
    · intro u t
      simp
    · intro h o hm
      simp at hm
  · rw [ha]
    constructor
    · intro u t
      simp
    · intro h2 o hm
      simp at hm
      obtain ⟨hm1, hm2⟩ := hm
      refine ⟨?_, hm2⟩
      rw [hm1]
      exact hh

/-- Witness for C4: on a concrete html payload the engine receives exactly
the supplied string with the translated options. -/
theorem html_source_passthrough_witness :
    ((⟨none, some "<p>x</p>", true, false, true, true, true, 30,
        "markdown"⟩ : ExtractMarkdownInput).html = some "<p>x</p>") ∧
    (⟨"markdown", false, false, true, true, true⟩ : EngineOpts) =
      engineOptsOf ⟨none, some "<p>x</p>", true, false, true, true, true,
        30, "markdown"⟩ :=
  (html_source_passthrough envEcho [("html", JValue.str "<p>x</p>")]
    ⟨none, some "<p>x</p>", true, false, true, true, true, 30, "markdown"⟩
    rfl (Or.inl rfl)).2 "<p>x</p>"
    ⟨"markdown", false, false, true, true, true⟩ (by decide)

/-- Counterexample to C4 as stated: the claim says the acquirer returns
the supplied html trimmed of surrounding whitespace; on a padded html
input the engine call recorded in the trace receives the padded string
itself, which differs from its stripped form.  The no-network half of the
claim holds and is part of the amended theorem. -/
theorem html_not_trimmed_cex :
    extract_markdown_tool envEcho [("html", JValue.str "  <p>Hi</p>  ")] =
      (.ok [⟨"text", "<p>Hi</p>"⟩],
       [.validate, .engineCall "  <p>Hi</p>  "
          ⟨"markdown", false, false, true, true, true⟩]) ∧
    pyStrip "  <p>Hi</p>  " ≠ "  <p>Hi</p>  " :=
  ⟨rfl, by decide⟩

end TrafilaturaMcp
